import Mathlib

/-!
Verification development for the SirensForge LoRA training worker
(`runpod/train_lora.py`) and the LoRA cache helper (`lib/lora_cache.py`).

The Python sources are shallowly embedded below: pure helpers become Lean
functions over `List Char` / `String`, stateful code (the worker loop body,
the cache routine) becomes explicit state passing over an environment record
that fixes the outcome of every external call (HTTP, object storage,
subprocess, filesystem), and fallible code returns `Except`/`Option`.
All character-level string utilities are implemented by structural recursion
so that every definition evaluates inside the kernel.
-/

namespace SirensForge

/-! ### Character/string primitives (structural, kernel-evaluable)

These model the Python string operations used by the source
(`str.replace`, `str.split`, `str.lower`, `str.strip`, `str.startswith`,
`str.endswith`) on the ASCII data the worker handles. -/

/-- Model of Python `str.replace(pat, rep)` on char lists: replace
non-overlapping occurrences left to right.  Fueled by the input length so the
recursion is structural. -/
def replaceSubAux (pat rep : List Char) : Nat → List Char → List Char
  | 0, l => l
  | _ + 1, [] => []
  | fuel + 1, c :: rest =>
      if pat.isPrefixOf (c :: rest) then
        rep ++ replaceSubAux pat rep fuel ((c :: rest).drop pat.length)
      else
        c :: replaceSubAux pat rep fuel rest

/-- Model of Python `str.replace`. -/
def pyReplace (s pat rep : String) : String :=
  String.mk (replaceSubAux pat.toList rep.toList s.toList.length s.toList)

/-- Split a char list on a single separator character (model of
`str.split(sep)` / `os.path.basename` support). -/
def splitOnCharAux (sep : Char) : List Char → List Char → List (List Char)
  | [], acc => [acc.reverse]
  | c :: rest, acc =>
      if c = sep then acc.reverse :: splitOnCharAux sep rest []
      else splitOnCharAux sep rest (c :: acc)

def splitOnChar (sep : Char) (s : String) : List (List Char) :=
  splitOnCharAux sep s.toList []

/-- Model of Python `str.lower()` (ASCII data). -/
def lowerStr (s : String) : String :=
  String.mk (s.toList.map Char.toLower)

/-- Python whitespace for `str.strip()` on the ASCII data at hand:
space and the ASCII control whitespace characters. -/
def isPySpace (c : Char) : Bool := c.toNat ≤ 32

/-- Model of Python `str.strip()`. -/
def pyStrip (s : String) : String :=
  String.mk (((s.toList.dropWhile isPySpace).reverse.dropWhile isPySpace).reverse)

/-- Model of Python `s.startswith(p)`. -/
def pyStartsWith (s p : String) : Bool := p.toList.isPrefixOf s.toList

/-- Model of Python `s.endswith(p)`. -/
def pyEndsWith (s p : String) : Bool := p.toList.isSuffixOf s.toList

/-- Model of Python `s[n:]` (drop the first `n` characters). -/
def pyDrop (s : String) (n : Nat) : String := String.mk (s.toList.drop n)

/-! ### UUID hardening (`CONTROL_CHARS_RE`, `UUID_RE`, `sanitize_uuid`) -/

/-- The character class of `CONTROL_CHARS_RE = re.compile(r"[\x00-\x1F\x7F]")`. -/
def isControlChar (c : Char) : Bool := c.toNat ≤ 31 || c.toNat = 127

/-- Model of `CONTROL_CHARS_RE.sub("", s)`: delete every control character. -/
def stripControl (s : String) : String :=
  String.mk (s.toList.filter (fun c => ¬ isControlChar c))

/-- Hex-digit character class `[0-9a-fA-F]` of `UUID_RE`. -/
def isHexChar (c : Char) : Bool :=
  (48 ≤ c.toNat && c.toNat ≤ 57) || (97 ≤ c.toNat && c.toNat ≤ 102) ||
    (65 ≤ c.toNat && c.toNat ≤ 70)

/-- Model of `UUID_RE.match`: five hyphen-separated hex groups of lengths
8-4-4-4-12, nothing else. -/
def uuidReMatch (s : String) : Bool :=
  match splitOnChar '-' s with
  | [a, b, c, d, e] =>
      a.length = 8 && b.length = 4 && c.length = 4 && d.length = 4 &&
        e.length = 12 && (a ++ b ++ c ++ d ++ e).all isHexChar
  | _ => false

/-- `{` / `}` (written by code point to keep them out of string literals). -/
def isBraceChar (c : Char) : Bool := c.toNat = 123 || c.toNat = 125

/-- Canonical textual form `str(uuid.UUID(...))`: the 32 hex digits,
lowercased, with hyphens reinserted at positions 8, 12, 16, 20.  (CPython
converts the digits to an integer and formats it back with `%032x`; on a
32-hex-digit string that round trip is exactly lowercasing.) -/
def hyphenateLower (l : List Char) : String :=
  let d := l.map Char.toLower
  String.mk (d.take 8) ++ "-" ++ String.mk ((d.drop 8).take 4) ++ "-" ++
    String.mk ((d.drop 12).take 4) ++ "-" ++ String.mk ((d.drop 16).take 4) ++
    "-" ++ String.mk (d.drop 20)

/-- Model of `uuid.UUID(clean)` followed by `str(u)`: CPython removes the
substrings `urn:` and `uuid:`, strips curly braces from both ends, deletes
all hyphens, and requires exactly 32 hex digits.  (The exotic tolerances of
CPython's `int(_, 16)` — embedded underscores and surrounding whitespace in
the digit string — are not modelled; no theorem below evaluates such
inputs.) -/
def pyUUIDparse (s : String) : Option String :=
  let t := pyReplace (pyReplace s "urn:" "") "uuid:" ""
  let l := (t.toList.dropWhile isBraceChar).reverse.dropWhile isBraceChar
  let l := l.reverse.filter (fun c => c ≠ '-')
  if l.length = 32 && l.all isHexChar then some (hyphenateLower l) else none

/-- Model of `sanitize_uuid(raw, field)`.  `raw` is `Option String`
(Python `None` vs `str(raw)`); errors are returned as `Except.error` with
the message family the source raises. -/
def sanitize_uuid (raw : Option String) (field : String) : Except String String :=
  match raw with
  | none => .error (field ++ " is None")
  | some s =>
      let no_ctl := stripControl s
      let clean := pyStrip no_ctl
      let clean :=
        if pyStartsWith (lowerStr clean) "id=" then pyStrip (pyDrop clean 3)
        else clean
      match pyUUIDparse clean with
      | none => .error ("Invalid UUID for " ++ field)
      | some out =>
          if uuidReMatch out then .ok out
          else .error ("Canonical UUID format failed for " ++ field)

/-- Model of `sanitize_eq_filter(value, field)`. -/
def sanitize_eq_filter (value : Option String) (field : String) :
    Except String String :=
  match value with
  | none => .error (field ++ " filter is None")
  | some v =>
      let s := pyStrip (stripControl v)
      if pyStartsWith (lowerStr s) "eq." then
        match sanitize_uuid (some (pyStrip (pyDrop s 3))) (field ++ " (eq filter)") with
        | .ok u => .ok ("eq." ++ u)
        | .error e => .error e
      else .ok s

/-! ### Configuration constants (module-level constants of the source;
environment-variable defaults are the values hard-coded in the script) -/

def MIN_IMAGES : Nat := 10
def MAX_IMAGES : Nat := 20
def TARGET_SAMPLES : Nat := 1200
def ARTIFACT_MIN_BYTES : Nat := 2 * 1024 * 1024
def LOCAL_TRAIN_ROOT : String := "/workspace/train_data"
def OUTPUT_ROOT : String := "/workspace/output_loras"
def R2_DATASET_PREFIX_ROOT : String := "lora_datasets"
def R2_ARTIFACT_PREFIX_ROOT : String := "loras"
def IMAGE_EXTS : List String := [".jpg", ".jpeg", ".png", ".webp"]

/-! ### Job-store client (`sb_patch_safe`, `_sanitize_params`)

JSON field values of a PATCH payload. -/

inductive JVal where
  | s (v : String)
  | n (v : Nat)
deriving DecidableEq, Repr

/-- Outcome of one `requests.patch` to PostgREST, as the source's
`sb_patch_safe` loop distinguishes them: 2xx success; a 400 whose body
`_extract_missing_column` parses into a column name; a 400 it cannot parse;
any other non-2xx status (`raise_for_status`). -/
inductive ServerResp where
  | success
  | missingColumn (col : String)
  | badRequest
  | httpError
deriving DecidableEq, Repr

/-- Model of `_sanitize_params`: the `id` entry goes through
`sanitize_eq_filter`; every other value is control-stripped and stripped. -/
def sanitize_params (params : List (String × String)) :
    Except String (List (String × String)) :=
  params.foldr
    (fun kv acc =>
      match acc with
      | .error e => .error e
      | .ok rest =>
          if kv.1 = "id" then
            match sanitize_eq_filter (some kv.2) "user_loras.id" with
            | .ok v => .ok ((kv.1, v) :: rest)
            | .error e => .error e
          else .ok ((kv.1, pyStrip (stripControl kv.2)) :: rest))
    (.ok [])

/-- The retry loop of `sb_patch_safe` (`for _ in range(12)`), one fuel unit
per attempt.  On a missing-column 400 the named field is stripped
(`working.pop(missing, None)`) and the same logical write retried; on any
other failure it raises; when the fuel is exhausted it raises
"failed repeatedly". -/
def sb_patch_attempts (server : List (String × JVal) → ServerResp) :
    Nat → List (String × JVal) → Except String (List (String × JVal))
  | 0, _ => .error "Supabase PATCH failed repeatedly (too many retries)"
  | fuel + 1, working =>
      match server working with
      | .success => .ok working
      | .httpError => .error "HTTPError"
      | .badRequest => .error "Supabase PATCH 400 (not missing-column)"
      | .missingColumn c =>
          sb_patch_attempts server fuel (working.filter (fun kv => kv.1 ≠ c))

/-- Model of `sb_patch_safe(table, payload, params)`: 12 attempts.  The
`server` argument abstracts the PostgREST endpoint; `.ok applied` returns
the field map the successful request carried. -/
def sb_patch_safe (server : List (String × JVal) → ServerResp)
    (payload : List (String × JVal)) : Except String (List (String × JVal)) :=
  sb_patch_attempts server 12 payload

/-- A PostgREST endpoint over a table with column set `cols`: a payload
containing a field that is not a known column is rejected with a
missing-column 400 naming that field (the first such, as PostgREST reports
one at a time); otherwise the write succeeds. -/
def colServer (cols : List String) (payload : List (String × JVal)) :
    ServerResp :=
  match payload.find? (fun kv => ¬ cols.contains kv.1) with
  | some kv => .missingColumn kv.1
  | none => .success

/-! ### Repeat logic (`compute_repeat`) -/

/-- Python's built-in `round` (banker's rounding, half to even) applied to
the exact quotient `a / b`, expressed over `Nat` so that it evaluates in the
kernel.  For the values `TARGET_SAMPLES / image_count` with
`1 ≤ image_count ≤ MAX_IMAGES` the double-precision evaluation in CPython
agrees with rounding the exact rational, since none of those quotients falls
near a representation boundary, and `roundHalfEvenDiv_eq_specRound` below
proves this function equal to half-to-even rounding of the exact rational. -/
def roundHalfEvenDiv (a b : Nat) : Nat :=
  let q := a / b
  let r := a % b
  if 2 * r < b then q
  else if b < 2 * r then q + 1
  else if q % 2 = 0 then q else q + 1

/-- Model of `compute_repeat(image_count)`:
`repeat = max(1, round(TARGET_SAMPLES / image_count))`,
returning `(repeat, image_count * repeat)`. -/
def compute_repeat (image_count : Nat) : Nat × Nat :=
  let rep := max 1 (roundHalfEvenDiv TARGET_SAMPLES image_count)
  (rep, image_count * rep)

/-- Round-half-to-even on an exact rational, written the way the spec reads
(`round(target_samples / image_count)` with true division): the reference
definition `compute_repeat` is compared against. -/
def specRound (q : ℚ) : ℤ :=
  if Int.fract q < 1 / 2 then ⌊q⌋
  else if 1 / 2 < Int.fract q then ⌊q⌋ + 1
  else if ⌊q⌋ % 2 = 0 then ⌊q⌋ else ⌊q⌋ + 1

/-! ### Queue selection (`sb_get` on `user_loras`)

The worker's poll query is
`status=eq.queued & user_id=not.is.null & order=created_at.asc & limit=1`. -/

structure JobRow where
  id : String
  status : String
  user_id : Option String
  created_at : Nat
deriving DecidableEq, Repr

/-- Row filter of the poll query: `status=eq.queued` and
`user_id=not.is.null`. -/
def eligibleQueued (r : JobRow) : Bool :=
  r.status = "queued" && r.user_id.isSome

/-- One step of the `created_at.asc`/`limit=1` scan: keep the earlier row
(stable on ties). -/
def minStep (acc : Option JobRow) (r : JobRow) : Option JobRow :=
  match acc with
  | none => some r
  | some b => if r.created_at < b.created_at then some r else some b

/-- `order=created_at.asc & limit=1` over the filtered rows: the first row
with minimal `created_at` (stable on ties). -/
def oldestFirst (l : List JobRow) : Option JobRow :=
  l.foldl minStep none

/-- The job the poll query hands the worker (`jobs[0]` or none). -/
def selectJob (rows : List JobRow) : Option JobRow :=
  oldestFirst (rows.filter eligibleQueued)

/-! ### PostgREST filter semantics for PATCH (`?id=eq.<uuid>[&...]`)

An `eq.`-valued parameter constrains the named column; a PATCH applies to
every row matching all its filter parameters. -/

/-- The projection of a job row the filters in this script touch. -/
def rowField (row : JobRow) (k : String) : String :=
  if k = "id" then row.id
  else if k = "status" then row.status
  else ""

/-- Whether one filter parameter matches a row. -/
def rowMatchesEntry (row : JobRow) (k v : String) : Bool :=
  if pyStartsWith v "eq." then rowField row k = pyDrop v 3 else true

/-- Whether a PATCH with these query parameters applies to a row. -/
def rowMatches (row : JobRow) (params : List (String × String)) : Bool :=
  params.all (fun kv => rowMatchesEntry row kv.1 kv.2)

/-! ### The worker's job-store writes (payloads and params as issued) -/

/-- Params of every per-job patch: `{"id": f"eq.{lora_id}"}`. -/
def claimParams (lora_id : String) : List (String × String) :=
  [("id", "eq." ++ lora_id)]

/-- Payload of the queued→training claim patch (line 724):
`{"status": "training", "progress": 1}`. -/
def claimPayload : List (String × JVal) :=
  [("status", .s "training"), ("progress", .n 1)]

/-- Payload of the failure patch issued by the exception handler:
`{"status": "failed", "progress": 0, "error_message": str(e)}`. -/
def failedPayload (msg : String) : List (String × JVal) :=
  [("status", .s "failed"), ("progress", .n 0), ("error_message", .s msg)]

/-! ### Dataset builder (`prepare_dataset`) -/

/-- Model of `os.path.basename` on an object key. -/
def basename (k : String) : String :=
  String.mk ((splitOnChar '/' k).getLastD [])

/-- `f.lower().endswith(IMAGE_EXTS)`. -/
def isImageFile (f : String) : Bool :=
  IMAGE_EXTS.any (fun e => pyEndsWith (lowerStr f) e)

/-- The filenames present in the staging directory after downloading every
listed key: the non-empty basenames, each name once (later downloads with
the same basename overwrite earlier ones; only the set of names matters). -/
def stagedFiles (keys : List String) : List String :=
  ((keys.map basename).filter (fun f => f ≠ "")).dedup

/-- The image count `prepare_dataset` validates against `[MIN_IMAGES,
MAX_IMAGES]`. -/
def downloadedImageCount (keys : List String) : Nat :=
  ((stagedFiles keys).filter isImageFile).length

/-- `build_trigger_token(lora_id)`: `"sf" + lora_id.replace("-","")[:8].lower()`. -/
def build_trigger_token (lora_id : String) : String :=
  "sf" ++ lowerStr (String.mk ((pyReplace lora_id "-" "").toList.take 8))

/-- The failure message of the image-count gate (f-string at line 553). -/
def invalidCountMsg (count : Nat) : String :=
  "Invalid image count: " ++ toString count ++ " (expected " ++
    toString MIN_IMAGES ++ "-" ++ toString MAX_IMAGES ++ ")"

/-- The dataset descriptor `prepare_dataset` returns. -/
structure DS where
  base_dir : String
  steps : Nat
  image_count : Nat
  nrepeat : Nat
  r2Prefix : String
  trigger_token : String
deriving DecidableEq, Repr

/-- Model of `prepare_dataset(lora_id)`.  External effects are supplied by
the caller: `keys` is the R2 listing under the job's prefix, `downloadsOk`
the combined outcome of the per-key `r2_download_file` calls, `captionsOk`
the combined outcome of the BLIP captioning / caption writing loop (which
runs only after the image-count gate). -/
def prepare_dataset (keys : List String) (downloadsOk : Except String Unit)
    (captionsOk : Except String Unit) (lora_id : String) : Except String DS :=
  let base := LOCAL_TRAIN_ROOT ++ "/sf_" ++ lora_id
  let pfx := pyReplace (R2_DATASET_PREFIX_ROOT ++ "/" ++ lora_id ++ "/") "//" "/"
  if keys.isEmpty then
    .error ("No files found in R2 for this job: " ++ pfx)
  else
    match downloadsOk with
    | .error e => .error e
    | .ok () =>
        let count := downloadedImageCount keys
        if ¬ (MIN_IMAGES ≤ count ∧ count ≤ MAX_IMAGES) then
          .error (invalidCountMsg count)
        else
          let rp := compute_repeat count
          let tok := build_trigger_token lora_id
          match captionsOk with
          | .error e => .error e
          | .ok () =>
              .ok ⟨base, rp.2, count, rp.1, pfx, tok⟩

/-! ### Training invocation (`run_training`) -/

/-- The deterministic artifact path:
`OUTPUT_ROOT/sf_<lora_id>/sf_<lora_id>.safetensors`. -/
def artifact_path (lora_id : String) : String :=
  OUTPUT_ROOT ++ "/sf_" ++ lora_id ++ "/sf_" ++ lora_id ++ ".safetensors"

/-- A filesystem snapshot: path ↦ size in bytes of the file there, if any. -/
def FS : Type := String → Option Nat

/-- Model of `run_training(lora_id, ds)`.  `startOk` is `p.stdout` being
non-None, `exitCode` the value of `p.wait()`, `outputLines` the streamed
combined stdout/stderr of the subprocess — the source echoes each line to
the console (`print(line, end="")`) and does not otherwise inspect it —
and `fs` the local filesystem after the subprocess has run. -/
def run_training (fs : FS) (startOk : Bool) (exitCode : Nat)
    (outputLines : List String) (lora_id : String) : Except String String :=
  let _ := outputLines
  let artifact := artifact_path lora_id
  if ¬ startOk then .error "Training process failed to start"
  else if exitCode ≠ 0 then .error "Training failed"
  else
    match fs artifact with
    | none => .error "Invalid artifact produced"
    | some sz =>
        if sz < ARTIFACT_MIN_BYTES then .error "Invalid artifact produced"
        else .ok artifact

/-! ### Artifact upload (`r2_upload_artifact`) -/

/-- Model of `r2_upload_artifact(s3, local_path, bucket, key)`:
existence check, minimum-size check, then the S3 upload (whose possible
`ClientError` is the `uploadErr` oracle). -/
def r2_upload_artifact (fs : FS) (local_path : String) (key : String)
    (uploadErr : Bool) : Except String String :=
  match fs local_path with
  | none => .error ("Artifact not found for upload: " ++ local_path)
  | some size =>
      if size < ARTIFACT_MIN_BYTES then
        .error ("Artifact too small for upload: " ++ toString size ++ " bytes")
      else if uploadErr then .error ("R2 upload failed: " ++ key)
      else .ok key

/-! ### Worker loop (`worker_main`), one iteration -/

/-- Observable actions of one iteration, in program order.  A `patch` is a
job-store write as handed to `sb_patch_safe` (payload and query params);
`train` is the spawn of the training subprocess; `upload` the
`r2_upload_artifact` call; `notify` the Edge Function call; `cleanup` the
`cleanup_job_dirs` call. -/
inductive Event where
  | patch (payload : List (String × JVal)) (params : List (String × String))
  | train (lora_id : String)
  | upload (bucket : String) (key : String)
  | notify (lora_id : String) (status : String)
  | cleanup (lora_id : Option String)
deriving DecidableEq, Repr

/-- Outcomes of every external call one iteration can make, fixed up front
(the single-threaded loop consults each at most once). -/
structure WEnv where
  /-- `sb_get` raising (network/HTTP error). -/
  fetchErr : Bool
  /-- the `user_loras` table contents the poll query runs against. -/
  rows : List JobRow
  /-- the claim `sb_patch_safe` raising. -/
  claimErr : Bool
  /-- R2 listing under the job's dataset prefix. -/
  keys : List String
  /-- outcome of the dataset downloads. -/
  downloadsOk : Except String Unit
  /-- outcome of the captioning loop. -/
  captionsOk : Except String Unit
  /-- `p.stdout` non-None after `subprocess.Popen`. -/
  startOk : Bool
  /-- `p.wait()`. -/
  trainExit : Nat
  /-- streamed subprocess output. -/
  trainOutput : List String
  /-- local filesystem after the subprocess has run. -/
  fs : FS
  /-- `s3.upload_file` raising `ClientError`. -/
  uploadErr : Bool
  /-- the full completed `sb_patch_safe` raising. -/
  patch1Err : Bool
  /-- the minimal completed `sb_patch_safe` raising. -/
  patch2Err : Bool
  /-- the failure `sb_patch_safe` raising. -/
  failPatchErr : Bool
  /-- `R2_DATASET_BUCKET`. -/
  datasetBucket : String
  /-- `R2_ARTIFACT_BUCKET`. -/
  artifactBucket : String

/-- The local variables of one iteration the exception handler consults,
plus the events issued so far. -/
structure TryState where
  lora_id : Option String
  artifact_uploaded : Bool
  uploaded_r2_key : Option String
  events : List Event
deriving Repr

/-- The full completed payload (lines 734-744). -/
def completedPayload (env : WEnv) (key : String) (ds : DS) :
    List (String × JVal) :=
  [("status", .s "completed"), ("progress", .n 100),
   ("artifact_r2_bucket", .s env.artifactBucket), ("artifact_r2_key", .s key),
   ("dataset_r2_bucket", .s env.datasetBucket),
   ("dataset_r2_prefix", .s ds.r2Prefix),
   ("image_count", .n ds.image_count),
   ("trigger_token", .s ds.trigger_token)]

/-- The minimal completed payload retried when the full one fails
(lines 751-760). -/
def minimalCompletedPayload (env : WEnv) (key : String) :
    List (String × JVal) :=
  [("status", .s "completed"), ("progress", .n 100),
   ("artifact_r2_bucket", .s env.artifactBucket), ("artifact_r2_key", .s key)]

/-- The tail of the try block once the artifact upload returned: the
completed patch (with the minimal retry inside its own `try`), the
terminal notify, and the cleanup.  Every failure past this point is caught
and logged, so this stretch cannot raise. -/
def afterUpload (env : WEnv) (lora_id : String) (key : String) (ds : DS)
    (evs : List Event) : TryState :=
  let evs := evs ++ [.patch (completedPayload env key ds) (claimParams lora_id)]
  let evs :=
    if env.patch1Err then
      evs ++ [.patch (minimalCompletedPayload env key) (claimParams lora_id)]
    else evs
  let evs := evs ++ [.notify lora_id "completed", .cleanup (some lora_id)]
  ⟨some lora_id, true, some key, evs⟩

/-- The `except` clause (lines 769-791): if the artifact was already
uploaded the failure patch is skipped entirely; otherwise, when a job id
is known, the failure patch is issued (and the notify only if that patch
did not itself raise), then cleanup. -/
def exceptHandler (env : WEnv) (st : TryState) (msg : String) : List Event :=
  if st.artifact_uploaded && st.lora_id.isSome && st.uploaded_r2_key.isSome then
    [.cleanup st.lora_id]
  else
    (match st.lora_id with
     | some lid =>
         [Event.patch (failedPayload msg) (claimParams lid)] ++
           (if env.failPatchErr then [] else [Event.notify lid "failed"])
     | none => []) ++ [.cleanup st.lora_id]

/-! The try block of one iteration of `worker_main`'s loop (lines 700-767),
factored into its successive statements.  Each stage returns the final
locals/events of the iteration and, when an exception escapes to the
`except` clause, its message. -/

/-- Lines 729-732: compute the artifact key (set before the upload), then
`r2_upload_artifact`; on success the remainder of the try block
(`afterUpload`) cannot raise. -/
def processUpload (env : WEnv) (lora_id : String) (ds : DS)
    (local_artifact : String) (evs : List Event) : TryState × Option String :=
  let key := pyReplace (R2_ARTIFACT_PREFIX_ROOT ++ "/" ++
    lora_id ++ "/final.safetensors") "//" "/"
  let evs := evs ++ [Event.upload env.artifactBucket key]
  match r2_upload_artifact env.fs local_artifact key env.uploadErr with
  | .error e => (⟨some lora_id, false, some key, evs⟩, some e)
  | .ok _ => (afterUpload env lora_id key ds evs, none)

/-- Line 727: `run_training` (the subprocess spawn is the `train` event). -/
def processTraining (env : WEnv) (lora_id : String) (ds : DS)
    (evs : List Event) : TryState × Option String :=
  let evs := evs ++ [Event.train lora_id]
  match run_training env.fs env.startOk env.trainExit
      env.trainOutput lora_id with
  | .error e => (⟨some lora_id, false, none, evs⟩, some e)
  | .ok local_artifact => processUpload env lora_id ds local_artifact evs

/-- Line 726: `prepare_dataset`. -/
def processDataset (env : WEnv) (lora_id : String) (evs : List Event) :
    TryState × Option String :=
  match prepare_dataset env.keys env.downloadsOk env.captionsOk lora_id with
  | .error e => (⟨some lora_id, false, none, evs⟩, some e)
  | .ok ds => processTraining env lora_id ds evs

/-- Line 724: the queued→training claim patch. -/
def processClaim (env : WEnv) (lora_id : String) : TryState × Option String :=
  let evs := [Event.patch claimPayload (claimParams lora_id)]
  if env.claimErr then
    (⟨some lora_id, false, none, evs⟩, some "claim patch failed")
  else processDataset env lora_id evs

/-- Line 721: `sanitize_uuid` on the fetched row's id. -/
def processRow (env : WEnv) (row : JobRow) : TryState × Option String :=
  match sanitize_uuid (some row.id) "user_loras.id" with
  | .error e => (⟨none, false, none, []⟩, some e)
  | .ok lora_id => processClaim env lora_id

/-- Lines 701-718: the poll query (which may itself raise), the idle path,
then the per-job stages above. -/
def tryBody (env : WEnv) : TryState × Option String :=
  if env.fetchErr then (⟨none, false, none, []⟩, some "sb_get failed")
  else
    match selectJob env.rows with
    | none => (⟨none, false, none, []⟩, none)
    | some row => processRow env row

/-- The observable events of an iteration outcome: the try block's events,
followed by the handler's when an exception reached it. -/
def eventsOf (env : WEnv) (p : TryState × Option String) : List Event :=
  match p with
  | (st, none) => st.events
  | (st, some e) => st.events ++ exceptHandler env st e

/-- The events of one full iteration of the worker loop. -/
def worker_iteration (env : WEnv) : List Event := eventsOf env (tryBody env)

/-- The try-block state of one iteration (for stating flag properties). -/
def worker_state (env : WEnv) : TryState := (tryBody env).1

/-- Recognizer: a job-store write whose payload sets `status` to `v`. -/
def isStatusPatch (v : String) : Event → Bool
  | .patch payload _ =>
      payload.any (fun kv =>
        kv.1 = "status" && (match kv.2 with | .s w => w = v | _ => false))
  | _ => false

/-- Recognizer: the training subprocess spawn. -/
def isTrainEvent : Event → Bool
  | .train _ => true
  | _ => false

/-! ### LoRA cache helper (`lib/lora_cache.py`) -/

def LORA_CACHE_DIR : String := "/workspace/cache/loras"

/-- `lora_local_path(filename)`. -/
def lora_local_path (filename : String) : String :=
  LORA_CACHE_DIR ++ "/" ++ filename

/-- `is_cached(filename)`: the file exists and has size > 0. -/
def is_cached (fs : FS) (filename : String) : Bool :=
  match fs (lora_local_path filename) with
  | some sz => 0 < sz
  | none => false

/-- Pointwise filesystem update (file creation / removal / resize). -/
def fsUpdate (fs : FS) (p : String) (v : Option Nat) : FS :=
  fun q => if q = p then v else fs q

/-- The temporary path `NamedTemporaryFile(dir=LORA_CACHE_DIR,
prefix=f".tmp_{filename}_")` picks; `tmpSuffix` is its random tail. -/
def tmpPath (filename tmpSuffix : String) : String :=
  LORA_CACHE_DIR ++ "/.tmp_" ++ filename ++ "_" ++ tmpSuffix

/-- Result of `ensure_lora_cached`: the filesystem afterwards, the returned
path or the raised `RuntimeError` message, and whether a download was
attempted. -/
structure CacheResult where
  fs : FS
  result : Except String String
  downloaded : Bool

/-- Model of `ensure_lora_cached(filename=..., signed_url=...,
expected_size_bytes=...)`.  `download` is the outcome of the streamed GET:
either an error (connection failure or `raise_for_status`) or the total
number of bytes written to the temp file.  On any failure the temp file is
removed and a `RuntimeError` raised; only after the size validations does
`shutil.move` place the file at the final path. -/
def ensure_lora_cached (fs : FS) (filename : String) (tmpSuffix : String)
    (download : Except String Nat) (expected_size_bytes : Option Nat) :
    CacheResult :=
  let final_path := lora_local_path filename
  if is_cached fs filename then ⟨fs, .ok final_path, false⟩
  else
    let tmp := tmpPath filename tmpSuffix
    let fs1 := fsUpdate fs tmp (some 0)
    match download with
    | .error e =>
        ⟨fsUpdate fs1 tmp none,
         .error ("Failed to cache LoRA " ++ filename ++ ": " ++ e), true⟩
    | .ok total_written =>
        let fs2 := fsUpdate fs1 tmp (some total_written)
        if (match expected_size_bytes with
            | some exp => (total_written ≠ exp : Bool)
            | none => false) then
          ⟨fsUpdate fs2 tmp none,
           .error ("Failed to cache LoRA " ++ filename ++ ": size mismatch"),
           true⟩
        else if total_written = 0 then
          ⟨fsUpdate fs2 tmp none,
           .error ("Failed to cache LoRA " ++ filename ++ ": empty"), true⟩
        else
          ⟨fsUpdate (fsUpdate fs2 tmp none) final_path (some total_written),
           .ok final_path, true⟩

/-! ### Concrete scenarios (inputs for witnesses and counterexamples) -/

/-- A well-formed job id. -/
def gid : String := "3a93a30f-ab12-cd34-ef56-0123456789ab"

def goodRow : JobRow := ⟨gid, "queued", some "user-1", 3⟩

/-- Ten distinct image keys under the job's dataset prefix. -/
def goodKeys : List String :=
  (List.range 10).map
    (fun i => "lora_datasets/" ++ gid ++ "/img" ++ toString i ++ ".jpg")

/-- Five image keys (below the MIN_IMAGES gate). -/
def fewKeys : List String :=
  (List.range 5).map
    (fun i => "lora_datasets/" ++ gid ++ "/img" ++ toString i ++ ".jpg")

/-- A filesystem on which training has produced a valid artifact. -/
def happyFs : FS :=
  fun p => if p = artifact_path gid then some ARTIFACT_MIN_BYTES else none

/-- A run in which every external call succeeds. -/
def happyEnv : WEnv :=
  { fetchErr := false, rows := [goodRow], claimErr := false, keys := goodKeys,
    downloadsOk := .ok (), captionsOk := .ok (), startOk := true,
    trainExit := 0, trainOutput := ["steps: 100%"], fs := happyFs,
    uploadErr := false, patch1Err := false, patch2Err := false,
    failPatchErr := false, datasetBucket := "sf-datasets",
    artifactBucket := "sf-artifacts" }

/-- The completed patch of the happy run (its fourth event). -/
def happyCompletedEvent : Event :=
  (worker_iteration happyEnv).getD 3 (.cleanup none)

/-- A run in which both completed status writes fail after the artifact
upload succeeded (bookkeeping failure after publication). -/
def lateFailEnv : WEnv := { happyEnv with patch1Err := true, patch2Err := true }

/-- A run whose subprocess exits 0 while emitting a typical textual failure
marker, with a valid artifact on disk. -/
def markerEnv : WEnv :=
  { happyEnv with trainOutput := ["RuntimeError: CUDA out of memory"] }

/-- A run whose dataset has only 5 recognized images. -/
def fewImagesEnv : WEnv := { happyEnv with keys := fewKeys }

/-- A job row already claimed (status `training`). -/
def c1Id : String := "aaaaaaaa-aaaa-aaaa-aaaa-aaaaaaaaaaaa"

def c1TrainingRow : JobRow := ⟨c1Id, "training", some "user-2", 0⟩

/-- An owner with a job already in `training` … -/
def activeOwnerRow : JobRow :=
  ⟨"bbbbbbbb-bbbb-bbbb-bbbb-bbbbbbbbbbbb", "training", some "owner-1", 0⟩

/-- … and a later `queued` job of the same owner. -/
def queuedSameOwnerRow : JobRow :=
  ⟨"cccccccc-cccc-cccc-cccc-cccccccccccc", "queued", some "owner-1", 5⟩

/-- A run against a store containing both rows of `owner-1` (the claim
patch is made to fail so the attempt stops right after it is issued). -/
def sameOwnerEnv : WEnv :=
  { happyEnv with
    rows := [activeOwnerRow, queuedSameOwnerRow]
    claimErr := true }

/-- Store columns / payload for the schema-drift scenario: the payload
carries one field (`trigger_token`) the store does not know. -/
def demoCols : List String := ["id", "status", "progress", "error_message"]

def demoDriftPayload : List (String × JVal) :=
  [("status", .s "failed"), ("progress", .n 0),
   ("error_message", .s "boom"), ("trigger_token", .s "sf3a93a30f")]

/-! ## General lemmas -/

theorem stripControl_idem (s : String) :
    stripControl (stripControl s) = stripControl s := by
  obtain ⟨d⟩ := s
  simp [stripControl, String.toList, List.filter_filter]

theorem pyStartsWith_append_self (s t : String) :
    pyStartsWith (s ++ t) s = true := by
  obtain ⟨a⟩ := s
  obtain ⟨b⟩ := t
  simp only [pyStartsWith, String.toList]
  rw [List.isPrefixOf_iff_prefix]
  exact ⟨b, rfl⟩

theorem pyDrop_append (s t : String) :
    pyDrop (s ++ t) s.length = t := by
  obtain ⟨a⟩ := s
  obtain ⟨b⟩ := t
  simp only [pyDrop, String.toList, String.length]
  rw [show (String.mk a ++ String.mk b) = String.mk (a ++ b) from rfl]
  simp [List.drop_left]

theorem find?_eq_head?_filter {α : Type} (p : α → Bool) (l : List α) :
    l.find? p = (l.filter p).head? := by
  induction l with
  | nil => rfl
  | cons x xs ih =>
      by_cases h : p x = true
      · rw [List.find?_cons_of_pos _ h, List.filter_cons_of_pos h]
        rfl
      · have h' : ¬ p x := by simpa using h
        rw [List.find?_cons_of_neg _ h', List.filter_cons_of_neg h', ih]

/-! ## C9 — identifier canonicalization and control characters -/

/-- C9 counterexample: a raw identifier containing the stray control
character `\x08` is NOT rejected — `sanitize_uuid` silently removes the
control character and returns the canonical form.  (The claim says such an
identifier is rejected rather than silently cleaned.) -/
theorem c9_control_char_accepted :
    "3a93a30f-ab12-cd34-ef56-0123456789ab\x08".toList.any isControlChar = true ∧
    sanitize_uuid (some "3a93a30f-ab12-cd34-ef56-0123456789ab\x08")
      "user_loras.id" = .ok "3a93a30f-ab12-cd34-ef56-0123456789ab" :=
  ⟨rfl, rfl⟩

/-- C9 (amended): identifier canonicalization strips control characters and
proceeds — `sanitize_uuid` is insensitive to control characters in its
input — and every identifier it accepts is returned in the fixed textual
UUID form (`UUID_RE` matches the output). -/
theorem c9_sanitize_strips_and_canonicalizes (field raw : String) :
    sanitize_uuid (some raw) field =
      sanitize_uuid (some (stripControl raw)) field ∧
    (∀ out, sanitize_uuid (some raw) field = .ok out →
      uuidReMatch out = true) := by
  constructor
  · show sanitize_uuid _ _ = sanitize_uuid _ _
    simp only [sanitize_uuid]
    rw [stripControl_idem]
  · intro out h
    simp only [sanitize_uuid] at h
    rcases hp : pyUUIDparse (if pyStartsWith (lowerStr (pyStrip (stripControl raw))) "id="
        then pyStrip (pyDrop (pyStrip (stripControl raw)) 3)
        else pyStrip (stripControl raw)) with _ | o
    · rw [hp] at h
      exact absurd h (by simp)
    · rw [hp] at h
      by_cases hm : uuidReMatch o = true
      · simp only [Option.some.injEq] at h
        simp [hm] at h
        exact h ▸ hm
      · simp [hm] at h

/-- C9 witness: the control-char-insensitivity and canonical-form
properties evaluated at a concrete raw identifier carrying a stray
newline. -/
theorem c9_sanitize_strips_witness :
    sanitize_uuid (some "3a93a30f-ab12-cd34-ef56-0123456789ab\x0A")
        "user_loras.id" =
      sanitize_uuid (some (stripControl "3a93a30f-ab12-cd34-ef56-0123456789ab\x0A"))
        "user_loras.id" ∧
    uuidReMatch "3a93a30f-ab12-cd34-ef56-0123456789ab" = true :=
  ⟨(c9_sanitize_strips_and_canonicalizes "user_loras.id"
      "3a93a30f-ab12-cd34-ef56-0123456789ab\x0A").1,
   (c9_sanitize_strips_and_canonicalizes "user_loras.id"
      "3a93a30f-ab12-cd34-ef56-0123456789ab\x0A").2
     "3a93a30f-ab12-cd34-ef56-0123456789ab" rfl⟩

/-! ## C1 — the queued→training claim patch -/

/-- C1 counterexample: the claim patch issued at line 724 filters on `id`
alone — its params carry no `status` key at all, they pass `_sanitize_params`
unchanged, and the filter matches a row whose status is already `training`.
A second worker's claim patch on an already-claimed row therefore affects
one row, not zero, contradicting "at most one patch applies and the others
affect zero rows" and "never issued as an unconditional patch filtered on
id alone". -/
theorem claim_patch_unconditional_on_id :
    (claimParams c1Id).lookup "status" = none ∧
    c1TrainingRow.status = "training" ∧
    rowMatches c1TrainingRow (claimParams c1Id) = true ∧
    sanitize_params (claimParams c1Id) = .ok (claimParams c1Id) ∧
    Event.patch claimPayload (claimParams gid) ∈ worker_iteration happyEnv :=
  ⟨rfl, rfl, by decide, rfl, by decide⟩

/-- C1 (amended): the queued→training transition is issued as a patch whose
only filter is id-equality; no status condition is attached, so the patch
matches its target row whatever that row's current status is (exclusivity
is not enforced by the write itself; only the preceding read filters on
`status=eq.queued`). -/
theorem claim_patch_filters_on_id_alone (lora_id : String) (row : JobRow)
    (h : row.id = lora_id) :
    (claimParams lora_id).lookup "status" = none ∧
    rowMatches row (claimParams lora_id) = true := by
  refine ⟨rfl, ?_⟩
  have h1 : pyStartsWith ("eq." ++ lora_id) "eq." = true :=
    pyStartsWith_append_self "eq." lora_id
  have h2 : pyDrop ("eq." ++ lora_id) 3 = lora_id :=
    pyDrop_append "eq." lora_id
  simp [rowMatches, claimParams, rowMatchesEntry, h1, h2, rowField, h]

/-- C1 amended-claim witness at a concrete id and row. -/
theorem claim_patch_filters_on_id_alone_witness :
    (claimParams gid).lookup "status" = none ∧
    rowMatches goodRow (claimParams gid) = true :=
  claim_patch_filters_on_id_alone gid goodRow rfl

/-! ## C8 — queue selection -/

theorem oldestFirst_go (l : List JobRow) :
    ∀ (acc : Option JobRow) (r : JobRow), l.foldl minStep acc = some r →
      (acc = some r ∨ r ∈ l) ∧
      (∀ b, acc = some b → r.created_at ≤ b.created_at) ∧
      (∀ x ∈ l, r.created_at ≤ x.created_at) := by
  induction l with
  | nil =>
      intro acc r h
      simp only [List.foldl_nil] at h
      refine ⟨Or.inl h, ?_, by simp⟩
      intro b hb
      rw [h] at hb
      obtain rfl : r = b := by injection hb
      exact le_refl _
  | cons x xs ih =>
      intro acc r h
      simp only [List.foldl_cons] at h
      obtain ⟨h1, h2, h3⟩ := ih (minStep acc x) r h
      have hstep_le : r.created_at ≤ x.created_at := by
        cases acc with
        | none => exact h2 x rfl
        | some b =>
            by_cases hlt : x.created_at < b.created_at
            · exact h2 x (by simp [minStep, hlt])
            · exact le_trans (h2 b (by simp [minStep, hlt])) (le_of_not_lt hlt)
      refine ⟨?_, ?_, ?_⟩
      · rcases h1 with hstep | hmem
        · cases acc with
          | none =>
              obtain rfl : x = r := by
                simpa [minStep] using hstep
              exact Or.inr (List.mem_cons_self _ _)
          | some b =>
              by_cases hlt : x.created_at < b.created_at
              · obtain rfl : x = r := by simpa [minStep, hlt] using hstep
                exact Or.inr (List.mem_cons_self _ _)
              · obtain rfl : b = r := by simpa [minStep, hlt] using hstep
                exact Or.inl rfl
        · exact Or.inr (List.mem_cons_of_mem _ hmem)
      · intro b hb
        subst hb
        by_cases hlt : x.created_at < b.created_at
        · exact le_trans (h2 x (by simp [minStep, hlt])) (le_of_lt hlt)
        · exact h2 b (by simp [minStep, hlt])
      · intro y hy
        rcases List.mem_cons.mp hy with rfl | hmem
        · exact hstep_le
        · exact h3 y hmem

/-- C8 (amended): the selector returns the oldest row that is `queued` with
a non-null `user_id`; it performs no check on whether the row's owner has
another job in `{queued, training}`. -/
theorem selector_picks_oldest_queued (rows : List JobRow) (r : JobRow)
    (h : selectJob rows = some r) :
    r ∈ rows ∧ r.status = "queued" ∧ r.user_id.isSome = true ∧
    ∀ x ∈ rows, eligibleQueued x = true → r.created_at ≤ x.created_at := by
  obtain ⟨h1, _, h3⟩ := oldestFirst_go (rows.filter eligibleQueued) none r h
  have hmem : r ∈ rows.filter eligibleQueued := by
    rcases h1 with hc | hmem
    · exact absurd hc (by simp)
    · exact hmem
  have hr := List.mem_filter.mp hmem
  have helig : r.status = "queued" ∧ r.user_id.isSome = true := by
    have := hr.2
    simp [eligibleQueued] at this
    exact this
  refine ⟨hr.1, helig.1, helig.2, ?_⟩
  intro x hx hex
  exact h3 x (List.mem_filter.mpr ⟨hx, hex⟩)

/-- C8 amended-claim witness at a one-row store. -/
theorem selector_picks_oldest_queued_witness :
    goodRow ∈ [goodRow] ∧ goodRow.status = "queued" ∧
    goodRow.user_id.isSome = true := by
  have h := selector_picks_oldest_queued [goodRow] goodRow rfl
  exact ⟨h.1, h.2.1, h.2.2.1⟩

/-- C8 counterexample: with `owner-1` holding a job already in `training`,
the selector still returns that owner's younger `queued` job, and the
worker proceeds to issue the claim patch for it — no owner-activity check
exists, refuting "candidates whose owner already has an active job are
skipped". -/
theorem selector_ignores_owner_activity :
    selectJob [activeOwnerRow, queuedSameOwnerRow] = some queuedSameOwnerRow ∧
    activeOwnerRow.user_id = queuedSameOwnerRow.user_id ∧
    activeOwnerRow.status = "training" ∧
    activeOwnerRow.id ≠ queuedSameOwnerRow.id ∧
    Event.patch claimPayload (claimParams queuedSameOwnerRow.id) ∈
      worker_iteration sameOwnerEnv :=
  ⟨rfl, rfl, rfl, by decide, by decide⟩

/-! ## C5 — the repeat/effective-samples formula -/

theorem roundHalfEvenDiv_eq_specRound (a b : Nat) (hb : 0 < b) :
    (roundHalfEvenDiv a b : ℤ) = specRound ((a : ℚ) / (b : ℚ)) := by
  have hbQ : ((b : ℚ)) ≠ 0 := Nat.cast_ne_zero.mpr hb.ne'
  have hbQ0 : (0 : ℚ) < (b : ℚ) := by exact_mod_cast hb
  have hkey : ((b : ℚ)) * ((a / b : Nat) : ℚ) + ((a % b : Nat) : ℚ) = (a : ℚ) := by
    exact_mod_cast congrArg (fun n : ℕ => (n : ℚ)) (Nat.div_add_mod a b)
  have hfloor : ⌊(a : ℚ) / (b : ℚ)⌋ = ((a / b : Nat) : ℤ) := by
    have h := Rat.floor_intCast_div_natCast (a : ℤ) b
    rw [show (((a : ℤ) : ℚ)) = ((a : ℚ)) by push_cast; ring] at h
    rw [h]
    exact (Int.natCast_div a b).symm
  have hsplit : (a : ℚ) / (b : ℚ) =
      ((a / b : Nat) : ℚ) + ((a % b : Nat) : ℚ) / (b : ℚ) := by
    field_simp
    linarith [hkey]
  have hfract : Int.fract ((a : ℚ) / (b : ℚ)) =
      ((a % b : Nat) : ℚ) / (b : ℚ) := by
    rw [← Int.self_sub_floor, hfloor, Int.cast_natCast, hsplit]
    ring
  have hlt : (((a % b : Nat) : ℚ) / (b : ℚ) < 1 / 2) ↔ (2 * (a % b) < b) := by
    rw [div_lt_div_iff₀ hbQ0 (by norm_num : (0:ℚ) < 2), one_mul]
    constructor
    · intro h
      have h' : ((a % b) * 2 : ℕ) < b := by exact_mod_cast h
      omega
    · intro h
      have h' : ((a % b) * 2 : ℕ) < b := by omega
      exact_mod_cast h'
  have hgt : (1 / 2 < ((a % b : Nat) : ℚ) / (b : ℚ)) ↔ (b < 2 * (a % b)) := by
    rw [div_lt_div_iff₀ (by norm_num : (0:ℚ) < 2) hbQ0, one_mul]
    constructor
    · intro h
      have h' : b < ((a % b) * 2 : ℕ) := by exact_mod_cast h
      omega
    · intro h
      have h' : b < ((a % b) * 2 : ℕ) := by omega
      exact_mod_cast h'
  have hpar : (((a / b : Nat) : ℤ) % 2 = 0) ↔ ((a / b) % 2 = 0) := by omega
  unfold roundHalfEvenDiv specRound
  rw [hfract, hfloor]
  by_cases h1 : 2 * (a % b) < b
  · rw [if_pos (hlt.mpr h1), if_pos (by exact_mod_cast h1)]
  · rw [if_neg (fun hc => h1 (hlt.mp hc)), if_neg (by exact_mod_cast h1)]
    by_cases h2 : b < 2 * (a % b)
    · rw [if_pos (hgt.mpr h2), if_pos (by exact_mod_cast h2)]
      push_cast
      ring
    · rw [if_neg (fun hc => h2 (hgt.mp hc)), if_neg (by exact_mod_cast h2)]
      by_cases h3 : (a / b) % 2 = 0
      · rw [if_pos (hpar.mpr h3), if_pos h3]
      · rw [if_neg (fun hc => h3 (hpar.mp hc)), if_neg h3]
        push_cast
        ring

/-- C5: for every image count in `[1, MAX_IMAGES]`, `compute_repeat`
returns `repeat = max(1, round(TARGET_SAMPLES / image_count))` — with
`round` the half-to-even rounding of the exact quotient — and
`effective_samples = image_count * repeat`; concretely, 10 images give
repeat 120, 20 images give repeat 60, and both give 1200 effective
samples. -/
theorem compute_repeat_formula :
    (∀ n, 1 ≤ n → n ≤ MAX_IMAGES →
      ((compute_repeat n).1 : ℤ) =
        max 1 (specRound ((TARGET_SAMPLES : ℚ) / (n : ℚ))) ∧
      (compute_repeat n).2 = n * (compute_repeat n).1) ∧
    compute_repeat 10 = (120, 1200) ∧ compute_repeat 20 = (60, 1200) := by
  refine ⟨?_, by decide, by decide⟩
  intro n h1 _
  constructor
  · show ((max 1 (roundHalfEvenDiv TARGET_SAMPLES n) : Nat) : ℤ) = _
    rw [Nat.cast_max]
    rw [roundHalfEvenDiv_eq_specRound TARGET_SAMPLES n h1]
    norm_num
  · rfl

/-- C5 witness: the formula applied at image count 7 (where the quotient
`1200/7` is not an integer). -/
theorem compute_repeat_formula_witness :
    ((compute_repeat 7).1 : ℤ) =
      max 1 (specRound ((TARGET_SAMPLES : ℚ) / ((7 : Nat) : ℚ))) ∧
    (compute_repeat 7).2 = 7 * (compute_repeat 7).1 :=
  compute_repeat_formula.1 7 (by decide) (by decide)

/-! ## C7 — schema-drift stripping in `sb_patch_safe` -/

theorem contains_false_iff (cols : List String) (a : String) :
    cols.contains a = false ↔ a ∉ cols := by
  constructor
  · intro h hmem
    have hc : cols.contains a = true := List.elem_eq_true_of_mem hmem
    rw [h] at hc
    exact absurd hc (by simp)
  · intro h
    cases hc : cols.contains a with
    | false => rfl
    | true => exact absurd (List.mem_of_elem_eq_true hc) h

theorem sb_patch_attempts_succ (server : List (String × JVal) → ServerResp)
    (n : Nat) (working : List (String × JVal)) :
    sb_patch_attempts server (n + 1) working =
      match server working with
      | .success => .ok working
      | .httpError => .error "HTTPError"
      | .badRequest => .error "Supabase PATCH 400 (not missing-column)"
      | .missingColumn c =>
          sb_patch_attempts server n (working.filter (fun kv => kv.1 ≠ c)) :=
  rfl

/-- C7: when the store rejects a write because exactly one payload field is
not a known column, `sb_patch_safe` strips exactly that field and the retry
succeeds carrying all remaining fields; and against a store that keeps
rejecting, the 12-attempt loop fails hard with an error.  (The bound 12 is
the `for _ in range(12)` fuel in the definition of `sb_patch_safe`.) -/
theorem sb_patch_safe_schema_drift (cols : List String)
    (payload : List (String × JVal)) :
    ((payload.filter (fun kv => ¬ cols.contains kv.1)).length = 1 →
      sb_patch_safe (colServer cols) payload =
        .ok (payload.filter (fun kv => cols.contains kv.1)) ∧
      ∀ kv ∈ payload, cols.contains kv.1 = true →
        kv ∈ payload.filter (fun kv => cols.contains kv.1)) ∧
    (∀ server : List (String × JVal) → ServerResp,
      (∀ w, ∃ c, server w = ServerResp.missingColumn c) →
      ∃ msg, sb_patch_safe server payload = .error msg) := by
  constructor
  · intro hlen
    obtain ⟨kv, hkv⟩ := List.length_eq_one.mp hlen
    have hkvmem : kv ∈ payload.filter (fun kv => ¬ cols.contains kv.1) := by
      rw [hkv]
      exact List.mem_singleton_self kv
    have hkvP := List.mem_filter.mp hkvmem
    have hunk : cols.contains kv.1 = false := by
      simpa using hkvP.2
    have huniq : ∀ x ∈ payload, cols.contains x.1 = false → x = kv := by
      intro x hx hxc
      have hside : (decide (¬ cols.contains x.1 = true)) = true := by
        rw [hxc]
        simp
      have hxmem : x ∈ payload.filter (fun kv => ¬ cols.contains kv.1) :=
        List.mem_filter.mpr ⟨hx, hside⟩
      rw [hkv] at hxmem
      simpa using hxmem
    have hfind : payload.find? (fun kv => ¬ cols.contains kv.1) = some kv := by
      rw [find?_eq_head?_filter, hkv]
      rfl
    have hserv : colServer cols payload = .missingColumn kv.1 := by
      unfold colServer
      rw [hfind]
    have hfilter_eq : payload.filter (fun x => x.1 ≠ kv.1) =
        payload.filter (fun x => cols.contains x.1) := by
      apply List.filter_congr
      intro x hx
      by_cases hc : cols.contains x.1 = true
      · rw [hc]
        simp only [decide_eq_true_eq]
        intro heq
        rw [heq, hunk] at hc
        exact absurd hc Bool.false_ne_true
      · have hx_eq := huniq x hx (by simpa using hc)
        subst hx_eq
        have hc' : cols.contains x.1 = false := by simpa using hc
        simp [(contains_false_iff cols x.1).mp hc']
    have hsucc :
        colServer cols (payload.filter (fun x => cols.contains x.1)) =
          .success := by
      unfold colServer
      have hnone : (payload.filter (fun x => cols.contains x.1)).find?
          (fun kv => ¬ cols.contains kv.1) = none := by
        apply List.find?_eq_none.mpr
        intro x hxmem
        have hxc : cols.contains x.1 = true := (List.mem_filter.mp hxmem).2
        simp
        exact List.mem_of_elem_eq_true hxc
      rw [hnone]
    constructor
    · show sb_patch_attempts (colServer cols) 12 payload = _
      have step1 : sb_patch_attempts (colServer cols) 12 payload =
          sb_patch_attempts (colServer cols) 11
            (payload.filter (fun x => x.1 ≠ kv.1)) := by
        rw [show (12 : Nat) = 11 + 1 from rfl, sb_patch_attempts_succ, hserv]
      rw [step1, hfilter_eq]
      rw [show (11 : Nat) = 10 + 1 from rfl, sb_patch_attempts_succ, hsucc]
    · intro kv2 h2 hc2
      exact List.mem_filter.mpr ⟨h2, by simpa using hc2⟩
  · intro server hserver
    suffices h : ∀ n w, ∃ msg, sb_patch_attempts server n w = .error msg from
      h 12 payload
    intro n
    induction n with
    | zero => intro w; exact ⟨_, rfl⟩
    | succ k ih =>
        intro w
        obtain ⟨c, hc⟩ := hserver w
        rw [sb_patch_attempts_succ, hc]
        exact ih _

/-- C7 witness: a failure write carrying the unknown field `trigger_token`
is applied with `status`, `progress` and `error_message` preserved; a store
that always claims a missing column exhausts the 12 attempts. -/
theorem sb_patch_safe_schema_drift_witness :
    sb_patch_safe (colServer demoCols) demoDriftPayload =
      .ok [("status", .s "failed"), ("progress", .n 0),
           ("error_message", .s "boom")] ∧
    ∃ msg, sb_patch_safe (fun _ => ServerResp.missingColumn "ghost")
      demoDriftPayload = .error msg := by
  constructor
  · exact ((sb_patch_safe_schema_drift demoCols demoDriftPayload).1
      (by decide)).1
  · exact (sb_patch_safe_schema_drift demoCols demoDriftPayload).2
      (fun _ => ServerResp.missingColumn "ghost") (fun w => ⟨"ghost", rfl⟩)

/-! ## C10 — cache atomicity of `ensure_lora_cached` -/

theorem fsUpdate_self (fs : FS) (p : String) (v : Option Nat) :
    fsUpdate fs p v p = v := by
  simp [fsUpdate]

theorem fsUpdate_ne (fs : FS) (p : String) (v : Option Nat) (q : String)
    (h : q ≠ p) : fsUpdate fs p v q = fs q := by
  simp [fsUpdate, h]

theorem tmpPath_ne_local (f s : String) :
    tmpPath f s ≠ lora_local_path f := by
  intro h
  have hlen := congrArg String.length h
  simp only [tmpPath, lora_local_path, String.length_append] at hlen
  have h1 : ("/.tmp_" : String).length = 6 := rfl
  have h2 : ("_" : String).length = 1 := rfl
  have h3 : ("/" : String).length = 1 := rfl
  rw [h1, h2, h3] at hlen
  omega

/-- C10: `ensure_lora_cached` is atomic at the final cache path.  If the
file is already cached it is returned with no download and an unchanged
filesystem; whenever the call raises (`RuntimeError`), the temp file is
gone and the final path is untouched; and a successful call returns the
final path with the file in place only after the downloaded byte count
passed the non-empty and expected-size validations. -/
theorem ensure_lora_cached_atomic (fs : FS) (filename tmpSuffix : String)
    (download : Except String Nat) (expected : Option Nat) :
    (is_cached fs filename = true →
      ensure_lora_cached fs filename tmpSuffix download expected =
        ⟨fs, .ok (lora_local_path filename), false⟩) ∧
    (∀ e, (ensure_lora_cached fs filename tmpSuffix download expected).result =
        .error e →
      (ensure_lora_cached fs filename tmpSuffix download expected).fs
          (lora_local_path filename) = fs (lora_local_path filename) ∧
      (ensure_lora_cached fs filename tmpSuffix download expected).fs
          (tmpPath filename tmpSuffix) = none) ∧
    (∀ p, is_cached fs filename = false →
      (ensure_lora_cached fs filename tmpSuffix download expected).result =
        .ok p →
      p = lora_local_path filename ∧
      ∃ total, download = .ok total ∧ 1 ≤ total ∧
        (∀ exp, expected = some exp → total = exp) ∧
        (ensure_lora_cached fs filename tmpSuffix download expected).fs
            (lora_local_path filename) = some total) := by
  have hne : lora_local_path filename ≠ tmpPath filename tmpSuffix :=
    Ne.symm (tmpPath_ne_local filename tmpSuffix)
  cases hcached : is_cached fs filename with
  | true =>
      have heq : ensure_lora_cached fs filename tmpSuffix download expected =
          ⟨fs, .ok (lora_local_path filename), false⟩ := by
        unfold ensure_lora_cached
        rw [hcached]
        simp
      refine ⟨fun _ => heq, ?_, ?_⟩
      · intro e he
        simp [heq] at he
      · intro p hcf
        exact absurd hcf (by simp)
  | false =>
      rcases download with e0 | total
      · -- the streamed GET raised
        have heq : ensure_lora_cached fs filename tmpSuffix (.error e0)
            expected =
            ⟨fsUpdate (fsUpdate fs (tmpPath filename tmpSuffix) (some 0))
                (tmpPath filename tmpSuffix) none,
             .error ("Failed to cache LoRA " ++ filename ++ ": " ++ e0),
             true⟩ := by
          unfold ensure_lora_cached
          rw [hcached]
          simp
        refine ⟨fun hc => absurd hc (by simp), ?_, ?_⟩
        · intro e he
          constructor
          · simp [heq, fsUpdate_ne _ _ _ _ hne]
          · simp [heq, fsUpdate_self]
        · intro p _ hok
          simp [heq] at hok
      · -- the download completed with `total` bytes
        rcases expected with _ | exp
        · by_cases h0 : total = 0
          · subst h0
            have heq : ensure_lora_cached fs filename tmpSuffix (.ok 0)
                none =
                ⟨fsUpdate (fsUpdate (fsUpdate fs
                    (tmpPath filename tmpSuffix) (some 0))
                    (tmpPath filename tmpSuffix) (some 0))
                    (tmpPath filename tmpSuffix) none,
                 .error ("Failed to cache LoRA " ++ filename ++ ": empty"),
                 true⟩ := by
              unfold ensure_lora_cached
              rw [hcached]
              simp
            refine ⟨fun hc => absurd hc (by simp), ?_, ?_⟩
            · intro e he
              constructor
              · simp [heq, fsUpdate_ne _ _ _ _ hne]
              · simp [heq, fsUpdate_self]
            · intro p _ hok
              simp [heq] at hok
          · have heq : ensure_lora_cached fs filename tmpSuffix (.ok total)
                none =
                ⟨fsUpdate (fsUpdate (fsUpdate (fsUpdate fs
                    (tmpPath filename tmpSuffix) (some 0))
                    (tmpPath filename tmpSuffix) (some total))
                    (tmpPath filename tmpSuffix) none)
                    (lora_local_path filename) (some total),
                 .ok (lora_local_path filename), true⟩ := by
              unfold ensure_lora_cached
              rw [hcached]
              simp [h0]
            refine ⟨fun hc => absurd hc (by simp), ?_, ?_⟩
            · intro e he
              simp [heq] at he
            · intro p _ hok
              simp [heq] at hok
              refine ⟨hok.symm, total, rfl, by omega,
                fun exp hexp => absurd hexp (by simp), ?_⟩
              simp [heq, fsUpdate_self]
        · by_cases hm : total = exp
          · by_cases h0 : total = 0
            · subst h0
              have heq : ensure_lora_cached fs filename tmpSuffix (.ok 0)
                  (some exp) =
                  ⟨fsUpdate (fsUpdate (fsUpdate fs
                      (tmpPath filename tmpSuffix) (some 0))
                      (tmpPath filename tmpSuffix) (some 0))
                      (tmpPath filename tmpSuffix) none,
                   .error ("Failed to cache LoRA " ++ filename ++ ": empty"),
                   true⟩ := by
                unfold ensure_lora_cached
                rw [hcached]
                simp [← hm]
              refine ⟨fun hc => absurd hc (by simp), ?_, ?_⟩
              · intro e he
                constructor
                · simp [heq, fsUpdate_ne _ _ _ _ hne]
                · simp [heq, fsUpdate_self]
              · intro p _ hok
                simp [heq] at hok
            · have heq : ensure_lora_cached fs filename tmpSuffix
                  (.ok total) (some exp) =
                  ⟨fsUpdate (fsUpdate (fsUpdate (fsUpdate fs
                      (tmpPath filename tmpSuffix) (some 0))
                      (tmpPath filename tmpSuffix) (some total))
                      (tmpPath filename tmpSuffix) none)
                      (lora_local_path filename) (some total),
                   .ok (lora_local_path filename), true⟩ := by
                unfold ensure_lora_cached
                rw [hcached]
                have h0' : ¬ exp = 0 := by omega
                simp [hm, h0']
              refine ⟨fun hc => absurd hc (by simp), ?_, ?_⟩
              · intro e he
                simp [heq] at he
              · intro p _ hok
                simp [heq] at hok
                refine ⟨hok.symm, total, rfl, by omega,
                  fun exp2 hexp => by injection hexp with h2; omega, ?_⟩
                simp [heq, fsUpdate_self]
          · have heq : ensure_lora_cached fs filename tmpSuffix (.ok total)
                (some exp) =
                ⟨fsUpdate (fsUpdate (fsUpdate fs
                    (tmpPath filename tmpSuffix) (some 0))
                    (tmpPath filename tmpSuffix) (some total))
                    (tmpPath filename tmpSuffix) none,
                 .error ("Failed to cache LoRA " ++ filename ++
                   ": size mismatch"),
                 true⟩ := by
              unfold ensure_lora_cached
              rw [hcached]
              simp [hm]
            refine ⟨fun hc => absurd hc (by simp), ?_, ?_⟩
            · intro e he
              constructor
              · simp [heq, fsUpdate_ne _ _ _ _ hne]
              · simp [heq, fsUpdate_self]
            · intro p _ hok
              simp [heq] at hok


/-- C10 witness: a fresh cache, a successful 5-byte download with a
matching expected size — the call returns the final path with the file in
place. -/
theorem ensure_lora_cached_atomic_witness :
    lora_local_path "a.safetensors" = lora_local_path "a.safetensors" ∧
    ∃ total, (Except.ok 5 : Except String Nat) = .ok total ∧ 1 ≤ total ∧
      (∀ exp, (some 5 : Option Nat) = some exp → total = exp) ∧
      (ensure_lora_cached (fun _ => none) "a.safetensors" "XYZ" (.ok 5)
          (some 5)).fs (lora_local_path "a.safetensors") = some total :=
  (ensure_lora_cached_atomic (fun _ => none) "a.safetensors" "XYZ" (.ok 5)
    (some 5)).2.2 (lora_local_path "a.safetensors") rfl rfl

/-! ## C4 — textual failure markers in the training output -/

/-- C4 counterexample: a run whose training subprocess exits 0 while its
streamed output carries a typical hard-failure marker, with a valid
artifact on disk: the job is recorded completed and never failed — the
invoker does not treat (or even detect) markers as failures. -/
theorem marker_ignored_counterexample :
    markerEnv.trainExit = 0 ∧
    markerEnv.trainOutput = ["RuntimeError: CUDA out of memory"] ∧
    (worker_iteration markerEnv).any (isStatusPatch "completed") = true ∧
    (worker_iteration markerEnv).any (isStatusPatch "failed") = false :=
  ⟨rfl, rfl, by decide, rfl⟩

/-- C4 (amended): the invoker streams the subprocess output but never
inspects it — `run_training`'s outcome is independent of the output lines;
failure is decided solely by the process handle, the exit code, and the
artifact check, and exit 0 with a valid artifact proceeds to success no
matter what the output contained. -/
theorem run_training_ignores_output (fs : FS) (so : Bool) (ec : Nat)
    (lines lines2 : List String) (lid : String) :
    run_training fs so ec lines lid = run_training fs so ec lines2 lid ∧
    (so = true → ec = 0 → ∀ sz, fs (artifact_path lid) = some sz →
      ARTIFACT_MIN_BYTES ≤ sz →
      run_training fs so ec lines lid = .ok (artifact_path lid)) := by
  refine ⟨rfl, ?_⟩
  intro hso hec sz hfs hsz
  subst hso
  subst hec
  simp only [run_training]
  rw [hfs]
  simp [Nat.not_lt.mpr hsz]

/-- C4 amended-claim witness: exit 0 with a marker line and a valid
artifact yields the success result. -/
theorem run_training_ignores_output_witness :
    run_training happyFs true 0 ["RuntimeError: CUDA out of memory"] gid =
      run_training happyFs true 0 [] gid ∧
    run_training happyFs true 0 ["RuntimeError: CUDA out of memory"] gid =
      .ok (artifact_path gid) :=
  ⟨(run_training_ignores_output happyFs true 0
      ["RuntimeError: CUDA out of memory"] [] gid).1,
   (run_training_ignores_output happyFs true 0
      ["RuntimeError: CUDA out of memory"] [] gid).2 rfl rfl
      ARTIFACT_MIN_BYTES rfl (le_refl _)⟩

/-! ## Worker-loop lemmas (shared by C2, C3, C6) -/

theorem isStatusPatch_claim_completed (ps : List (String × String)) :
    isStatusPatch "completed" (.patch claimPayload ps) = false := by
  simp [isStatusPatch, claimPayload]

theorem isStatusPatch_claim_failed (ps : List (String × String)) :
    isStatusPatch "failed" (.patch claimPayload ps) = false := by
  simp [isStatusPatch, claimPayload]

theorem isStatusPatch_failedPayload_completed (m : String)
    (ps : List (String × String)) :
    isStatusPatch "completed" (.patch (failedPayload m) ps) = false := by
  simp [isStatusPatch, failedPayload]

theorem isStatusPatch_completedPayload_failed (env : WEnv) (k : String)
    (ds : DS) (ps : List (String × String)) :
    isStatusPatch "failed" (.patch (completedPayload env k ds) ps) = false := by
  simp [isStatusPatch, completedPayload]

theorem isStatusPatch_minimalPayload_failed (env : WEnv) (k : String)
    (ps : List (String × String)) :
    isStatusPatch "failed" (.patch (minimalCompletedPayload env k) ps) =
      false := by
  simp [isStatusPatch, minimalCompletedPayload]

/-- Events of the exception handler never record `completed` and never
spawn training. -/
theorem exceptHandler_mem (env : WEnv) (st : TryState) (msg : String)
    (ev : Event) (h : ev ∈ exceptHandler env st msg) :
    isStatusPatch "completed" ev = false ∧ isTrainEvent ev = false := by
  unfold exceptHandler at h
  split at h
  · simp at h
    subst h
    exact ⟨rfl, rfl⟩
  · rcases hl : st.lora_id with _ | lid <;> rw [hl] at h
    · simp at h
      subst h
      exact ⟨rfl, rfl⟩
    · by_cases hf : env.failPatchErr = true <;> simp [hf] at h
      · rcases h with rfl | rfl
        · exact ⟨isStatusPatch_failedPayload_completed _ _, rfl⟩
        · exact ⟨rfl, rfl⟩
      · rcases h with rfl | rfl | rfl
        · exact ⟨isStatusPatch_failedPayload_completed _ _, rfl⟩
        · exact ⟨rfl, rfl⟩
        · exact ⟨rfl, rfl⟩

/-- With the artifact-uploaded flag (and the id and key) set, the handler
degenerates to the cleanup alone — the failed-status patch is skipped. -/
theorem exceptHandler_skips_failed (env : WEnv) (st : TryState) (msg : String)
    (h1 : st.artifact_uploaded = true) (h2 : st.lora_id.isSome = true)
    (h3 : st.uploaded_r2_key.isSome = true) :
    exceptHandler env st msg = [.cleanup st.lora_id] := by
  unfold exceptHandler
  rw [if_pos (by simp [h1, h2, h3])]

/-- Inversion of a successful `run_training`: the returned path is the
deterministic artifact path and the artifact exists there with at least
`ARTIFACT_MIN_BYTES` bytes. -/
theorem run_training_ok {fs : FS} {so : Bool} {ec : Nat}
    {out : List String} {lid a : String}
    (h : run_training fs so ec out lid = .ok a) :
    a = artifact_path lid ∧
    ∃ sz, fs (artifact_path lid) = some sz ∧ ARTIFACT_MIN_BYTES ≤ sz := by
  simp only [run_training] at h
  split at h
  · exact absurd h (by simp)
  · split at h
    · exact absurd h (by simp)
    · split at h
      · exact absurd h (by simp)
      · rename_i sz hm
        split at h
        · exact absurd h (by simp)
        · rename_i hsz
          obtain rfl : artifact_path lid = a := by injection h
          exact ⟨rfl, sz, hm, le_of_not_lt hsz⟩

/-- Events appended by `afterUpload` never set status `failed`. -/
theorem afterUpload_no_failed (env : WEnv) (lid key : String) (ds : DS)
    (evs : List Event)
    (hevs : ∀ ev ∈ evs, isStatusPatch "failed" ev = false) :
    ∀ ev ∈ (afterUpload env lid key ds evs).events,
      isStatusPatch "failed" ev = false := by
  intro ev h
  unfold afterUpload at h
  by_cases hp : env.patch1Err = true <;> simp [hp] at h
  · rcases h with hin | rfl | rfl | rfl | rfl
    · exact hevs ev hin
    · exact isStatusPatch_completedPayload_failed _ _ _ _
    · exact isStatusPatch_minimalPayload_failed _ _ _
    · rfl
    · rfl
  · rcases h with hin | rfl | rfl | rfl
    · exact hevs ev hin
    · exact isStatusPatch_completedPayload_failed _ _ _ _
    · rfl
    · rfl

/-- Inversion of a successful `r2_upload_artifact`: the local file exists
and meets the minimum size. -/
theorem r2_upload_artifact_ok {fs : FS} {la key : String} {ue : Bool}
    {k2 : String} (h : r2_upload_artifact fs la key ue = .ok k2) :
    ∃ sz, fs la = some sz ∧ ARTIFACT_MIN_BYTES ≤ sz := by
  simp only [r2_upload_artifact] at h
  split at h
  · exact absurd h (by simp)
  · rename_i sz hm
    split at h
    · exact absurd h (by simp)
    · split at h
      · exact absurd h (by simp)
      · rename_i hsz _
        exact ⟨sz, hm, le_of_not_lt hsz⟩

/-- The iteration outcome `p` never writes `failed` once the
artifact-uploaded flag is set. -/
def NoFailedIfUploaded (env : WEnv) (p : TryState × Option String) : Prop :=
  p.1.artifact_uploaded = true →
    ∀ ev ∈ eventsOf env p, isStatusPatch "failed" ev = false

theorem processUpload_no_failed (env : WEnv) (lid : String) (ds : DS)
    (la : String) (evs : List Event)
    (hevs : ∀ ev ∈ evs, isStatusPatch "failed" ev = false) :
    NoFailedIfUploaded env (processUpload env lid ds la evs) := by
  intro hup ev hmem
  rcases hP : processUpload env lid ds la evs with ⟨st, err⟩
  rw [hP] at hup hmem
  simp only [processUpload] at hP
  split at hP
  · injection hP with h1 h2; subst h1; subst h2; simp at hup
  · injection hP with h1 h2; subst h1; subst h2
    simp only [eventsOf] at hmem
    refine afterUpload_no_failed _ _ _ _ _ ?_ ev hmem
    intro ev2 h2
    rcases List.mem_append.mp h2 with hin | hin
    · exact hevs ev2 hin
    · simp at hin
      subst hin
      rfl

theorem processTraining_no_failed (env : WEnv) (lid : String) (ds : DS)
    (evs : List Event)
    (hevs : ∀ ev ∈ evs, isStatusPatch "failed" ev = false) :
    NoFailedIfUploaded env (processTraining env lid ds evs) := by
  intro hup
  rcases hP : processTraining env lid ds evs with ⟨st, err⟩
  rw [hP] at hup
  simp only [processTraining] at hP
  split at hP
  · injection hP with h1 h2; subst h1; subst h2; simp at hup
  · rw [← hP] at hup ⊢
    refine processUpload_no_failed env lid ds _ _ ?_ hup
    intro ev2 h2
    rcases List.mem_append.mp h2 with hin | hin
    · exact hevs ev2 hin
    · simp at hin
      subst hin
      rfl

theorem processDataset_no_failed (env : WEnv) (lid : String)
    (evs : List Event)
    (hevs : ∀ ev ∈ evs, isStatusPatch "failed" ev = false) :
    NoFailedIfUploaded env (processDataset env lid evs) := by
  intro hup
  rcases hP : processDataset env lid evs with ⟨st, err⟩
  rw [hP] at hup
  simp only [processDataset] at hP
  split at hP
  · injection hP with h1 h2; subst h1; subst h2; simp at hup
  · rw [← hP] at hup ⊢
    exact processTraining_no_failed env lid _ evs hevs hup

theorem processClaim_no_failed (env : WEnv) (lid : String) :
    NoFailedIfUploaded env (processClaim env lid) := by
  intro hup
  rcases hP : processClaim env lid with ⟨st, err⟩
  rw [hP] at hup
  simp only [processClaim] at hP
  split at hP
  · injection hP with h1 h2; subst h1; subst h2; simp at hup
  · rw [← hP] at hup ⊢
    refine processDataset_no_failed env lid _ ?_ hup
    intro ev2 h2
    simp at h2
    subst h2
    exact isStatusPatch_claim_failed _

theorem processRow_no_failed (env : WEnv) (row : JobRow) :
    NoFailedIfUploaded env (processRow env row) := by
  intro hup
  rcases hP : processRow env row with ⟨st, err⟩
  rw [hP] at hup
  simp only [processRow] at hP
  split at hP
  · injection hP with h1 h2; subst h1; subst h2; simp at hup
  · rw [← hP] at hup ⊢
    exact processClaim_no_failed env _ hup

theorem tryBody_no_failed (env : WEnv) :
    NoFailedIfUploaded env (tryBody env) := by
  intro hup
  rcases hP : tryBody env with ⟨st, err⟩
  rw [hP] at hup
  simp only [tryBody] at hP
  split at hP
  · injection hP with h1 h2; subst h1; subst h2; simp at hup
  · split at hP
    · injection hP with h1 h2; subst h1; subst h2; simp at hup
    · rw [← hP] at hup ⊢
      exact processRow_no_failed env _ hup

/-! ## C3 — terminal-state protection after artifact upload -/

/-- C3: once the artifact upload has succeeded in a job attempt (the
`artifact_uploaded` flag of the iteration is set), no event of that
iteration writes status `failed`; and independently, the exception handler
skips the failed-status patch outright whenever the artifact-uploaded flag
(together with the job id and the uploaded key) is set. -/
theorem uploaded_job_never_marked_failed (env : WEnv) :
    ((worker_state env).artifact_uploaded = true →
      ∀ ev ∈ worker_iteration env, isStatusPatch "failed" ev = false) ∧
    (∀ st msg, st.artifact_uploaded = true → st.lora_id.isSome = true →
      st.uploaded_r2_key.isSome = true →
      ∀ ev ∈ exceptHandler env st msg, isStatusPatch "failed" ev = false) := by
  constructor
  · intro hup ev hmem
    exact tryBody_no_failed env hup ev hmem
  · intro st msg h1 h2 h3 ev hmem
    rw [exceptHandler_skips_failed env st msg h1 h2 h3] at hmem
    simp at hmem
    subst hmem
    rfl

/-- C3 witness: a run in which both completed status writes fail after the
upload succeeded — the flag is set and no failed-status patch is issued. -/
theorem uploaded_job_never_marked_failed_witness :
    (worker_state lateFailEnv).artifact_uploaded = true ∧
    (worker_iteration lateFailEnv).any (isStatusPatch "failed") = false := by
  have h := (uploaded_job_never_marked_failed lateFailEnv).1
  refine ⟨by decide, ?_⟩
  rw [List.any_eq_false]
  intro ev hev
  simp [h (by decide) ev hev]

/-! ## C2 — completed only with a validated artifact -/

/-- Every `completed` write in the outcome `p` presupposes a valid artifact
at the deterministic output path of `lid`. -/
def CompletedNeedsArtifact (env : WEnv) (lid : String)
    (p : TryState × Option String) : Prop :=
  ∀ ev ∈ eventsOf env p, isStatusPatch "completed" ev = true →
    ∃ sz, env.fs (artifact_path lid) = some sz ∧ ARTIFACT_MIN_BYTES ≤ sz

theorem processTraining_completed (env : WEnv) (lid : String) (ds : DS)
    (evs : List Event)
    (hevs : ∀ ev ∈ evs, isStatusPatch "completed" ev = false) :
    CompletedNeedsArtifact env lid (processTraining env lid ds evs) := by
  intro ev hmem hcp
  rcases hP : processTraining env lid ds evs with ⟨st, err⟩
  rw [hP] at hmem
  simp only [processTraining] at hP
  split at hP
  · injection hP with h1 h2; subst h1; subst h2
    simp only [eventsOf] at hmem
    rcases List.mem_append.mp hmem with hin | hin
    · rcases List.mem_append.mp hin with hin2 | hin2
      · rw [hevs ev hin2] at hcp
        exact absurd hcp (by simp)
      · simp at hin2
        subst hin2
        exact absurd hcp (by simp [isTrainEvent, isStatusPatch])
    · rw [(exceptHandler_mem env _ _ ev hin).1] at hcp
      exact absurd hcp (by simp)
  · rename_i la heq
    obtain ⟨-, sz, hfs, hsz⟩ := run_training_ok heq
    exact ⟨sz, hfs, hsz⟩

theorem processDataset_completed (env : WEnv) (lid : String)
    (evs : List Event)
    (hevs : ∀ ev ∈ evs, isStatusPatch "completed" ev = false) :
    CompletedNeedsArtifact env lid (processDataset env lid evs) := by
  intro ev hmem hcp
  rcases hP : processDataset env lid evs with ⟨st, err⟩
  rw [hP] at hmem
  simp only [processDataset] at hP
  split at hP
  · injection hP with h1 h2; subst h1; subst h2
    simp only [eventsOf] at hmem
    rcases List.mem_append.mp hmem with hin | hin
    · rw [hevs ev hin] at hcp
      exact absurd hcp (by simp)
    · rw [(exceptHandler_mem env _ _ ev hin).1] at hcp
      exact absurd hcp (by simp)
  · rw [← hP] at hmem
    exact processTraining_completed env lid _ evs hevs ev hmem hcp

theorem processClaim_completed (env : WEnv) (lid : String) :
    CompletedNeedsArtifact env lid (processClaim env lid) := by
  intro ev hmem hcp
  rcases hP : processClaim env lid with ⟨st, err⟩
  rw [hP] at hmem
  simp only [processClaim] at hP
  split at hP
  · injection hP with h1 h2; subst h1; subst h2
    simp only [eventsOf] at hmem
    rcases List.mem_append.mp hmem with hin | hin
    · simp at hin
      subst hin
      rw [isStatusPatch_claim_completed _] at hcp
      exact absurd hcp (by simp)
    · rw [(exceptHandler_mem env _ _ ev hin).1] at hcp
      exact absurd hcp (by simp)
  · rw [← hP] at hmem
    refine processDataset_completed env lid _ ?_ ev hmem hcp
    intro ev2 h2
    simp at h2
    subst h2
    exact isStatusPatch_claim_completed _

/-- C2: any event of a worker iteration that writes status `completed`
comes with a selected row whose sanitized id has a valid artifact — a file
at the deterministic output path of at least `ARTIFACT_MIN_BYTES` (2 MB) —
on the post-training filesystem.  No path sets `completed` with a missing
or sub-threshold artifact. -/
theorem completed_requires_valid_artifact (env : WEnv) (ev : Event)
    (hmem : ev ∈ worker_iteration env)
    (hcp : isStatusPatch "completed" ev = true) :
    ∃ row lora_id sz, selectJob env.rows = some row ∧
      sanitize_uuid (some row.id) "user_loras.id" = .ok lora_id ∧
      env.fs (artifact_path lora_id) = some sz ∧
      ARTIFACT_MIN_BYTES ≤ sz := by
  have hmem2 : ev ∈ eventsOf env (tryBody env) := hmem
  rcases hT : tryBody env with ⟨st, err⟩
  rw [hT] at hmem2
  simp only [tryBody] at hT
  split at hT
  · injection hT with h1 h2; subst h1; subst h2
    simp only [eventsOf] at hmem2
    rcases List.mem_append.mp hmem2 with hin | hin
    · exact absurd hin (by simp)
    · rw [(exceptHandler_mem env _ _ ev hin).1] at hcp
      exact absurd hcp (by simp)
  · split at hT
    · injection hT with h1 h2; subst h1; subst h2
      simp only [eventsOf] at hmem2
      exact absurd hmem2 (by simp)
    · rename_i row hsel
      -- the per-row stages
      rcases hR : processRow env row with ⟨st2, err2⟩
      rw [hT] at hR
      injection hR with h1 h2; subst h1; subst h2
      have hmem3 : ev ∈ eventsOf env (processRow env row) := by
        rw [hT]; exact hmem2
      clear hmem2 hT
      rcases hP : processRow env row with ⟨st, err⟩
      rw [hP] at hmem3
      simp only [processRow] at hP
      split at hP
      · injection hP with h1 h2; subst h1; subst h2
        simp only [eventsOf] at hmem3
        rcases List.mem_append.mp hmem3 with hin | hin
        · exact absurd hin (by simp)
        · rw [(exceptHandler_mem env _ _ ev hin).1] at hcp
          exact absurd hcp (by simp)
      · rename_i lora_id hsan
        rw [← hP] at hmem3
        obtain ⟨sz, hfs, hsz⟩ :=
          processClaim_completed env lora_id ev hmem3 hcp
        exact ⟨row, lora_id, sz, hsel, hsan, hfs, hsz⟩

/-- C2 witness: the completed patch of the fully successful run, with the
valid 2 MB artifact at the deterministic path. -/
theorem completed_requires_valid_artifact_witness :
    ∃ row lora_id sz, selectJob happyEnv.rows = some row ∧
      sanitize_uuid (some row.id) "user_loras.id" = .ok lora_id ∧
      happyEnv.fs (artifact_path lora_id) = some sz ∧
      ARTIFACT_MIN_BYTES ≤ sz :=
  completed_requires_valid_artifact happyEnv happyCompletedEvent (by decide)
    (by decide)

/-! ## C6 — the image-count gate -/

theorem prepare_dataset_bad_count (keys : List String)
    (captionsOk : Except String Unit) (lora_id : String)
    (hkeys : keys.isEmpty = false)
    (hcount : downloadedImageCount keys < MIN_IMAGES ∨
      MAX_IMAGES < downloadedImageCount keys) :
    prepare_dataset keys (.ok ()) captionsOk lora_id =
      .error (invalidCountMsg (downloadedImageCount keys)) := by
  have hc : ¬ (MIN_IMAGES ≤ downloadedImageCount keys ∧
      downloadedImageCount keys ≤ MAX_IMAGES) := by
    rcases hcount with h | h
    · exact fun hx => absurd hx.1 (by omega)
    · exact fun hx => absurd hx.2 (by omega)
  simp only [prepare_dataset, hkeys]
  simp [hc]

/-- C6: when the downloaded set of recognized images has a count outside
`[MIN_IMAGES, MAX_IMAGES]`, the iteration issues the failure write whose
`error_message` is exactly `invalidCountMsg count` — a string carrying the
actual count — the training subprocess is never spawned, and no completed
write occurs. -/
theorem bad_image_count_fails_before_training (env : WEnv) (row : JobRow)
    (lora_id : String)
    (hfetch : env.fetchErr = false)
    (hsel : selectJob env.rows = some row)
    (hsan : sanitize_uuid (some row.id) "user_loras.id" = .ok lora_id)
    (hclaim : env.claimErr = false)
    (hkeys : env.keys.isEmpty = false)
    (hdl : env.downloadsOk = .ok ())
    (hcount : downloadedImageCount env.keys < MIN_IMAGES ∨
      MAX_IMAGES < downloadedImageCount env.keys) :
    Event.patch
        (failedPayload (invalidCountMsg (downloadedImageCount env.keys)))
        (claimParams lora_id) ∈ worker_iteration env ∧
    (∀ ev ∈ worker_iteration env, isTrainEvent ev = false) ∧
    (∀ ev ∈ worker_iteration env, isStatusPatch "completed" ev = false) := by
  have hprep :=
    prepare_dataset_bad_count env.keys env.captionsOk lora_id hkeys hcount
  have hT : tryBody env =
      (⟨some lora_id, false, none,
        [Event.patch claimPayload (claimParams lora_id)]⟩,
       some (invalidCountMsg (downloadedImageCount env.keys))) := by
    simp [tryBody, hfetch, hsel, processRow, hsan, processClaim, hclaim,
      processDataset, hdl, hprep]
  refine ⟨?_, ?_, ?_⟩
  · by_cases hf : env.failPatchErr = true <;>
      simp [worker_iteration, hT, eventsOf, exceptHandler, hf]
  · intro ev hmem
    by_cases hf : env.failPatchErr = true
    · simp [worker_iteration, hT, eventsOf, exceptHandler, hf] at hmem
      rcases hmem with rfl | rfl | rfl
      · rfl
      · rfl
      · rfl
    · simp [worker_iteration, hT, eventsOf, exceptHandler, hf] at hmem
      rcases hmem with rfl | rfl | rfl | rfl
      · rfl
      · rfl
      · rfl
      · rfl
  · intro ev hmem
    by_cases hf : env.failPatchErr = true
    · simp [worker_iteration, hT, eventsOf, exceptHandler, hf] at hmem
      rcases hmem with rfl | rfl | rfl
      · exact isStatusPatch_claim_completed _
      · exact isStatusPatch_failedPayload_completed _ _
      · rfl
    · simp [worker_iteration, hT, eventsOf, exceptHandler, hf] at hmem
      rcases hmem with rfl | rfl | rfl | rfl
      · exact isStatusPatch_claim_completed _
      · exact isStatusPatch_failedPayload_completed _ _
      · rfl
      · rfl

/-- C6 witness: five images — the failure write carries
"Invalid image count: 5 (expected 10-20)", no train event, no completed
write. -/
theorem bad_image_count_witness :
    Event.patch
        (failedPayload (invalidCountMsg (downloadedImageCount fewImagesEnv.keys)))
        (claimParams gid) ∈ worker_iteration fewImagesEnv ∧
    (worker_iteration fewImagesEnv).any isTrainEvent = false ∧
    (worker_iteration fewImagesEnv).any (isStatusPatch "completed") = false ∧
    invalidCountMsg (downloadedImageCount fewImagesEnv.keys) =
      "Invalid image count: 5 (expected 10-20)" := by
  have h := bad_image_count_fails_before_training fewImagesEnv goodRow gid
    rfl rfl rfl rfl rfl rfl (by decide)
  refine ⟨h.1, ?_, ?_, by decide⟩
  · rw [List.any_eq_false]
    intro ev hev
    simp [h.2.1 ev hev]
  · rw [List.any_eq_false]
    intro ev hev
    simp [h.2.2 ev hev]

end SirensForge
